import Mathlib

/-!
# Verification of the wecom session-aggregation core

Shallow embedding of the in-memory session-aggregation engine
(`StreamStore`, `ActiveReplyStore`, `MonitorState`) from the repository's
monitor module, together with proofs of the specification claims.

Modelling decisions, uniform across the file:

* JavaScript `Map` objects are modelled as insertion-ordered association
  lists `List (String × α)`; `Map.get` finds the first (unique) entry,
  `Map.set` overwrites in place or appends, `Map.delete` removes the entry.
  States built through the operations never hold duplicate keys; theorems
  that need this fact take an explicit `keysNodup` hypothesis.
* `Date.now()` is modelled by an explicit `now : Int` argument (millisecond
  timestamps) threaded to every operation that reads the clock.
* `crypto.randomBytes(16).toString("hex")` is modelled by a fresh-id counter
  `nextId` in the store: the source treats identifier collisions as
  unreachable, so a deterministic injective supply is a faithful model.
* `setTimeout`/`clearTimeout` debounce timers: a pending group owns at most
  one timer, so `clearTimeout` followed by `setTimeout(…, d)` is modelled by
  overwriting the group's `timeout` slot with the new absolute fire time
  `some (now + d)`; a cleared timer is `none`.  The timer firing is the
  `flushPending` transition.
* The flush handler (`onFlush`) is modelled by a registration flag plus a
  `flushed` log that records every invocation of the handler with its
  argument; the source's single-threaded semantics make the log a faithful
  account of how often and with what data the handler fires.
* The `use` callback `fn` is an arbitrary function returning
  `Except String Unit` (`.error e` models a thrown error with message `e`);
  thrown/returned outcomes of `use` are reified in `UseOutcome`.
* TypeScript optional strings use JavaScript truthiness (`undefined` and
  `""` are falsy); `jsTruthy` models the `if (x)` presence checks.
-/

/-- JavaScript truthiness of an optional string: `undefined` and `""` are
falsy, every other string is truthy.  Models `if (params.msgid)` etc. -/
def jsTruthy : Option String → Bool
  | none => false
  | some s => s ≠ ""

/-- JavaScript truthiness of an optional number: `undefined` and `0` are
falsy.  Models `if (state.usedAt)`-style checks on timestamp fields. -/
def jsTruthyInt : Option Int → Bool
  | none => false
  | some t => t ≠ 0

/-- Model of JavaScript `String.prototype.trim()`: drop leading and
trailing whitespace characters. -/
def jsTrim (s : String) : String :=
  ⟨((s.data.dropWhile Char.isWhitespace).reverse.dropWhile Char.isWhitespace).reverse⟩

/-! ## Insertion-ordered association-list model of JavaScript `Map` -/

/-- `Map.get`: value of the first entry with the given key. -/
def mapGet (l : List (String × α)) (k : String) : Option α :=
  (l.find? (fun e => e.1 = k)).map (·.2)

/-- `Map.set`: overwrite the entry in place if the key is present, else
append at the end (JavaScript insertion-order semantics). -/
def mapSet (l : List (String × α)) (k : String) (v : α) : List (String × α) :=
  match l with
  | [] => [(k, v)]
  | e :: rest => if e.1 = k then (k, v) :: rest else e :: mapSet rest k v

/-- `Map.delete`: remove the entry with the given key. -/
def mapDelete (l : List (String × α)) (k : String) : List (String × α) :=
  l.filter (fun e => e.1 ≠ k)

/-- `Map.has`: key membership. -/
def mapContains (l : List (String × α)) (k : String) : Bool :=
  (mapGet l k).isSome

/-- The association list has no duplicate keys (invariant of every list
built through the `Map` operations). -/
def keysNodup (l : List (String × α)) : Prop :=
  (l.map Prod.fst).Nodup

instance (l : List (String × α)) : Decidable (keysNodup l) := by
  unfold keysNodup
  infer_instance

/-! ## Data model (from `types.js`, reconstructed from the fields the
monitor module reads and writes) -/

/-- Inbound webhook message; the monitor module only reads its optional
`msgid` field, the rest of the payload is opaque to it. -/
structure WecomInboundMessage where
  msgid : Option String
  deriving Repr, DecidableEq

/-- One logical reply session (`StreamState`). -/
structure StreamState where
  streamId : String
  msgid : Option String
  createdAt : Int
  updatedAt : Int
  started : Bool
  finished : Bool
  content : String
  deriving Repr, DecidableEq

/-- A pending inbound aggregation group (`PendingInbound`).  `timeout` is
the absolute scheduled fire time of the debounce timer (`none` once
cleared). -/
structure PendingInbound where
  streamId : String
  target : String
  msg : WecomInboundMessage
  contents : List String
  msgids : List String
  nonce : String
  timestamp : String
  createdAt : Int
  timeout : Option Int
  deriving Repr, DecidableEq

/-- One stored reply address (`ActiveReplyState`). -/
structure ActiveReplyState where
  response_url : String
  proxyUrl : Option String
  createdAt : Int
  usedAt : Option Int
  lastError : Option String
  deriving Repr, DecidableEq

/-! ## Constants (`LIMITS`) -/

namespace LIMITS

def STREAM_TTL_MS : Int := 10 * 60 * 1000

def ACTIVE_REPLY_TTL_MS : Int := 60 * 60 * 1000

def DEFAULT_DEBOUNCE_MS : Int := 500

def STREAM_MAX_BYTES : Int := 20480

def REQUEST_TIMEOUT_MS : Int := 15000

end LIMITS

/-! ## StreamStore -/

/-- The mutable state of a `StreamStore` instance.  `onFlush` records
whether a flush handler is registered; `flushed` is the log of handler
invocations; `nextId` is the fresh-id supply modelling
`crypto.randomBytes`. -/
structure StreamStore where
  streams : List (String × StreamState)
  msgidToStreamId : List (String × String)
  pendingInbounds : List (String × PendingInbound)
  onFlush : Bool
  flushed : List PendingInbound
  nextId : Nat
  deriving Repr, DecidableEq

namespace StreamStore

/-- A freshly constructed `StreamStore`: empty maps, no handler. -/
def init : StreamStore :=
  { streams := [], msgidToStreamId := [], pendingInbounds := [],
    onFlush := false, flushed := [], nextId := 0 }

/-- `setFlushHandler`: register the flush handler (modelled as a flag). -/
def setFlushHandler (st : StreamStore) : StreamStore :=
  { st with onFlush := true }

/-- Fresh stream identifier produced from the id-supply counter; models
`crypto.randomBytes(16).toString("hex")`. -/
def genStreamId (n : Nat) : String :=
  "stream-" ++ toString n

/-- `createStream({msgid})`: generate a fresh id, bind the msgid in the
secondary index when truthy, insert the new `StreamState`.  Returns the
new stream id together with the updated store. -/
def createStream (msgid : Option String) (now : Int) (st : StreamStore) :
    String × StreamStore :=
  let streamId := genStreamId st.nextId
  let idx :=
    match msgid with
    | some s => if s ≠ "" then mapSet st.msgidToStreamId s streamId else st.msgidToStreamId
    | none => st.msgidToStreamId
  (streamId,
   { st with
     msgidToStreamId := idx,
     streams := mapSet st.streams streamId
       { streamId := streamId, msgid := msgid, createdAt := now, updatedAt := now,
         started := false, finished := false, content := "" },
     nextId := st.nextId + 1 })

/-- `getStream(streamId)`. -/
def getStream (streamId : String) (st : StreamStore) : Option StreamState :=
  mapGet st.streams streamId

/-- `getStreamByMsgId(msgid)`. -/
def getStreamByMsgId (msgid : String) (st : StreamStore) : Option String :=
  mapGet st.msgidToStreamId msgid

/-- `updateStream(streamId, mutator)`: apply the mutator and refresh
`updatedAt` when the stream exists; silent no-op otherwise. -/
def updateStream (streamId : String) (mutator : StreamState → StreamState)
    (now : Int) (st : StreamStore) : StreamStore :=
  match mapGet st.streams streamId with
  | some s =>
      { st with streams := mapSet st.streams streamId { mutator s with updatedAt := now } }
  | none => st

/-- `markStarted(streamId)`. -/
def markStarted (streamId : String) (now : Int) (st : StreamStore) : StreamStore :=
  updateStream streamId (fun s => { s with started := true }) now st

/-- `markFinished(streamId)`. -/
def markFinished (streamId : String) (now : Int) (st : StreamStore) : StreamStore :=
  updateStream streamId (fun s => { s with finished := true }) now st

/-- Argument bundle of `addPendingMessage` (the TypeScript `params`
object, minus the implicit clock). -/
structure AddPendingParams where
  pendingKey : String
  target : String
  msg : WecomInboundMessage
  msgContent : String
  nonce : String
  timestamp : String
  debounceMs : Option Int
  deriving Repr, DecidableEq

/-- `addPendingMessage(params)`: debounce aggregation.  Existing group:
append the fragment (and the msgid when truthy), reschedule the timer for
the debounce window from now, return the existing stream id with
`isNew=false`.  No group: create a stream seeded with the msgid, create a
one-fragment group with a scheduled timer, return the new stream id with
`isNew=true`. -/
def addPendingMessage (params : AddPendingParams) (now : Int) (st : StreamStore) :
    (String × Bool) × StreamStore :=
  let effectiveDebounceMs := params.debounceMs.getD LIMITS.DEFAULT_DEBOUNCE_MS
  match mapGet st.pendingInbounds params.pendingKey with
  | some existing =>
      let updated :=
        { existing with
          contents := existing.contents ++ [params.msgContent],
          msgids :=
            if jsTruthy params.msg.msgid then
              existing.msgids ++ [params.msg.msgid.getD ""]
            else existing.msgids,
          timeout := some (now + effectiveDebounceMs) }
      ((existing.streamId, false),
       { st with pendingInbounds := mapSet st.pendingInbounds params.pendingKey updated })
  | none =>
      let r := createStream params.msg.msgid now st
      let pending : PendingInbound :=
        { streamId := r.1, target := params.target, msg := params.msg,
          contents := [params.msgContent],
          msgids := if jsTruthy params.msg.msgid then [params.msg.msgid.getD ""] else [],
          nonce := params.nonce, timestamp := params.timestamp,
          createdAt := now, timeout := some (now + effectiveDebounceMs) }
      ((r.1, true),
       { r.2 with pendingInbounds := mapSet r.2.pendingInbounds params.pendingKey pending })

/-- `flushPending(pendingKey)` (timer callback): remove the group, clear
its timer, invoke the registered handler with it (logged in `flushed`);
no-op when the group is already gone. -/
def flushPending (pendingKey : String) (st : StreamStore) : StreamStore :=
  match mapGet st.pendingInbounds pendingKey with
  | none => st
  | some pending =>
      let cleared :=
        if pending.timeout.isSome then { pending with timeout := none } else pending
      { st with
        pendingInbounds := mapDelete st.pendingInbounds pendingKey,
        flushed := if st.onFlush then st.flushed ++ [cleared] else st.flushed }

/-- Index deletion performed when one expired stream `(id, …)` is
removed: if the stream has a truthy `msgid` whose index entry still
points at `id`, delete that entry. -/
def pruneIdxStep (idx : List (String × String)) (msgid : Option String)
    (id : String) : List (String × String) :=
  match msgid with
  | some m =>
      if m ≠ "" then
        if mapGet idx m = some id then mapDelete idx m else idx
      else idx
  | none => idx

/-- First sweep of `prune`: iterate the stream map in insertion order;
drop expired streams, and for each dropped stream whose truthy `msgid`
index entry still points at it, delete that index entry. -/
def pruneStreamsPass (now : Int) :
    List (String × StreamState) → List (String × String) →
    List (String × StreamState) × List (String × String)
  | [], idx => ([], idx)
  | (id, s) :: rest, idx =>
      if s.updatedAt < now - LIMITS.STREAM_TTL_MS then
        pruneStreamsPass now rest (pruneIdxStep idx s.msgid id)
      else
        let r := pruneStreamsPass now rest idx
        ((id, s) :: r.1, r.2)

/-- `prune(now)`: evict expired streams (and their index entries), sweep
dangling index entries, and drop stale pending groups without invoking
the flush handler. -/
def prune (now : Int) (st : StreamStore) : StreamStore :=
  let p := pruneStreamsPass now st.streams st.msgidToStreamId
  let idx := p.2.filter (fun e => mapContains p.1 e.2)
  let pending := st.pendingInbounds.filter (fun e => ¬ (now - e.2.createdAt > LIMITS.STREAM_TTL_MS))
  { st with streams := p.1, msgidToStreamId := idx, pendingInbounds := pending }

end StreamStore

/-! ## ActiveReplyStore -/

/-- Consumption policy of the reply-address store. -/
inductive Policy
  | once
  | multi
  deriving Repr, DecidableEq

/-- The state of an `ActiveReplyStore` instance. -/
structure ActiveReplyStore where
  policy : Policy
  activeReplies : List (String × ActiveReplyState)
  deriving Repr, DecidableEq

/-- Reified outcome of `ActiveReplyStore.use`: resolved without a bound
address (callback not invoked), delivered successfully, rejected by the
single-use policy (callback not invoked), or the callback threw and the
error was re-raised. -/
inductive UseOutcome
  | skipped
  | delivered
  | policyViolation (msg : String)
  | deliveryFailed (err : String)
  deriving Repr, DecidableEq

namespace ActiveReplyStore

/-- `new ActiveReplyStore(policy)`; the constructor's default policy is
`once`. -/
def new (policy : Policy := Policy.once) : ActiveReplyStore :=
  { policy := policy, activeReplies := [] }

/-- `store(streamId, responseUrl, proxyUrl)`: no-op when `responseUrl` is
absent or blank after trimming; otherwise bind a fresh record (usage
history reset). -/
def store (streamId : String) (responseUrl : Option String) (proxyUrl : Option String)
    (now : Int) (st : ActiveReplyStore) : ActiveReplyStore :=
  match responseUrl.map jsTrim with
  | none => st
  | some url =>
      if url = "" then st
      else
        { st with activeReplies := (mapSet st.activeReplies streamId
            { response_url := url, proxyUrl := proxyUrl, createdAt := now,
              usedAt := none, lastError := none }) }

/-- `getUrl(streamId)`. -/
def getUrl (streamId : String) (st : ActiveReplyStore) : Option String :=
  (mapGet st.activeReplies streamId).map (·.response_url)

/-- `use(streamId, fn)`: skip when no (truthy) address is bound; throw a
policy violation when the policy is `once` and the record was already
used; otherwise invoke `fn` — on success stamp `usedAt`, on failure record
`lastError` and re-raise. -/
def use (streamId : String) (fn : String → Option String → Except String Unit)
    (now : Int) (st : ActiveReplyStore) : UseOutcome × ActiveReplyStore :=
  match mapGet st.activeReplies streamId with
  | none => (UseOutcome.skipped, st)
  | some state =>
      if state.response_url = "" then (UseOutcome.skipped, st)
      else if st.policy = Policy.once ∧ jsTruthyInt state.usedAt = true then
        (UseOutcome.policyViolation
          ("response_url already used for stream " ++ streamId ++ " (Policy: once)"), st)
      else
        match fn state.response_url state.proxyUrl with
        | Except.ok _ =>
            (UseOutcome.delivered,
             { st with activeReplies := (mapSet st.activeReplies streamId
                 { state with usedAt := some now }) })
        | Except.error e =>
            (UseOutcome.deliveryFailed e,
             { st with activeReplies := (mapSet st.activeReplies streamId
                 { state with lastError := some e }) })

/-- `prune(now)`: drop records older than the active-reply TTL. -/
def prune (now : Int) (st : ActiveReplyStore) : ActiveReplyStore :=
  { st with activeReplies :=
      st.activeReplies.filter (fun e => ¬ (e.2.createdAt < now - LIMITS.ACTIVE_REPLY_TTL_MS)) }

end ActiveReplyStore

/-! ## MonitorState singleton -/

/-- The process-wide coordinator: one `StreamStore` plus one
`ActiveReplyStore` constructed with the `"multi"` policy. -/
structure MonitorState where
  streamStore : StreamStore
  activeReplyStore : ActiveReplyStore
  deriving Repr, DecidableEq

/-- The module-level singleton `monitorState`. -/
def monitorState : MonitorState :=
  { streamStore := StreamStore.init,
    activeReplyStore := ActiveReplyStore.new Policy.multi }

/-! ## Arrival traces (driver for the debounce-aggregation claims) -/

/-- One webhook arrival for a fixed grouping key: the per-call arguments
of `addPendingMessage` other than the key, plus the call time. -/
structure Arrival where
  target : String
  msg : WecomInboundMessage
  msgContent : String
  nonce : String
  timestamp : String
  debounceMs : Option Int
  now : Int
  deriving Repr, DecidableEq

/-- The `addPendingMessage` argument bundle of one arrival. -/
def arrivalParams (k : String) (a : Arrival) : StreamStore.AddPendingParams :=
  { pendingKey := k, target := a.target, msg := a.msg, msgContent := a.msgContent,
    nonce := a.nonce, timestamp := a.timestamp, debounceMs := a.debounceMs }

/-- Feed a sequence of arrivals for one grouping key through
`addPendingMessage`, collecting the returned `(streamId, isNew)` pairs
and the final store. -/
def runArrivals (k : String) : List Arrival → StreamStore →
    List (String × Bool) × StreamStore
  | [], st => ([], st)
  | a :: rest, st =>
      ((StreamStore.addPendingMessage (arrivalParams k a) a.now st).1 ::
         (runArrivals k rest
           (StreamStore.addPendingMessage (arrivalParams k a) a.now st).2).1,
       (runArrivals k rest
         (StreamStore.addPendingMessage (arrivalParams k a) a.now st).2).2)

/-! ## Lemmas about the `Map` model -/

theorem mapGet_nil (k : String) : mapGet ([] : List (String × α)) k = none := rfl

theorem mapGet_cons (e : String × α) (t : List (String × α)) (k : String) :
    mapGet (e :: t) k = if e.1 = k then some e.2 else mapGet t k := by
  by_cases h : e.1 = k <;> simp [mapGet, List.find?_cons, h]

theorem mapGet_set_self (l : List (String × α)) (k : String) (v : α) :
    mapGet (mapSet l k v) k = some v := by
  induction l with
  | nil => simp [mapSet, mapGet_cons]
  | cons e t ih =>
      by_cases h : e.1 = k
      · simp [mapSet, h, mapGet_cons]
      · simp [mapSet, h, mapGet_cons, ih]

theorem mapGet_set_ne (l : List (String × α)) (k k' : String) (v : α) (h : k' ≠ k) :
    mapGet (mapSet l k v) k' = mapGet l k' := by
  induction l with
  | nil => simp [mapSet, mapGet_cons, mapGet_nil, Ne.symm h]
  | cons e t ih =>
      by_cases he : e.1 = k
      · subst he
        rw [show mapSet (e :: t) e.1 v = (e.1, v) :: t from by simp [mapSet]]
        rw [mapGet_cons, mapGet_cons]
        simp [Ne.symm h]
      · simp [mapSet, he, mapGet_cons, ih]

theorem mapGet_delete (l : List (String × α)) (k m : String) :
    mapGet (mapDelete l k) m = if m = k then none else mapGet l m := by
  induction l with
  | nil => simp [mapDelete, mapGet_nil]
  | cons e t ih =>
      by_cases he : e.1 = k
      · have hd : mapDelete (e :: t) k = mapDelete t k := by
          simp [mapDelete, List.filter_cons, he]
        rw [hd, ih]
        by_cases hm : m = k
        · simp [hm]
        · have hem : ¬ e.1 = m := fun hh => hm (hh ▸ he)
          simp [hm, mapGet_cons, hem]
      · have hd : mapDelete (e :: t) k = e :: mapDelete t k := by
          simp [mapDelete, List.filter_cons, he]
        rw [hd, mapGet_cons, ih, mapGet_cons]
        by_cases hem : e.1 = m
        · have hmk : ¬ m = k := fun hh => he (hem.trans hh)
          simp [hem, hmk]
        · simp [hem]

theorem mapGet_eq_none_iff (l : List (String × α)) (m : String) :
    mapGet l m = none ↔ m ∉ l.map Prod.fst := by
  induction l with
  | nil => simp [mapGet_nil]
  | cons e t ih =>
      rw [mapGet_cons]
      by_cases he : e.1 = m
      · simp [he]
      · simp [he, ih, Ne.symm he]

theorem mapGet_eq_some_iff_mem (l : List (String × α)) (h : keysNodup l) (m : String) (v : α) :
    mapGet l m = some v ↔ (m, v) ∈ l := by
  induction l with
  | nil => simp [mapGet_nil]
  | cons e t ih =>
      have h' : e.1 ∉ t.map Prod.fst ∧ keysNodup t := by
        simpa [keysNodup] using h
      rw [mapGet_cons]
      by_cases he : e.1 = m
      · rw [if_pos he]
        constructor
        · intro hv
          have hv' : e.2 = v := by simpa using hv
          have hev : e = (m, v) := by
            cases e
            simp only [Prod.mk.injEq]
            exact ⟨he, hv'⟩
          rw [hev]
          exact List.mem_cons_self _ _
        · intro hmem
          rcases List.mem_cons.mp hmem with hhead | htail
          · cases hhead
            simp
          · exfalso
            have hmk : m ∈ t.map Prod.fst := by
              simpa using List.mem_map_of_mem Prod.fst htail
            exact (he ▸ h'.1) hmk
      · rw [if_neg he, ih h'.2]
        constructor
        · exact fun hmem => List.mem_cons_of_mem _ hmem
        · intro hmem
          rcases List.mem_cons.mp hmem with hhead | htail
          · cases hhead
            simp at he
          · exact htail

theorem keysNodup_delete (l : List (String × α)) (k : String) (h : keysNodup l) :
    keysNodup (mapDelete l k) := by
  have hsub : ((mapDelete l k).map Prod.fst).Sublist (l.map Prod.fst) :=
    List.Sublist.map Prod.fst (List.filter_sublist l)
  exact List.Nodup.sublist hsub h

theorem keysNodup_filter (l : List (String × α)) (q : String × α → Bool) (h : keysNodup l) :
    keysNodup (l.filter q) := by
  have hsub : ((l.filter q).map Prod.fst).Sublist (l.map Prod.fst) :=
    List.Sublist.map Prod.fst (List.filter_sublist l)
  exact List.Nodup.sublist hsub h

theorem mapGet_filter (l : List (String × α)) (q : String × α → Bool) (h : keysNodup l)
    (m : String) (v : α) :
    mapGet (l.filter q) m = some v ↔ (mapGet l m = some v ∧ q (m, v) = true) := by
  induction l with
  | nil => simp [mapGet_nil]
  | cons e t ih =>
      have h' : e.1 ∉ t.map Prod.fst ∧ keysNodup t := by
        simpa [keysNodup] using h
      rw [List.filter_cons]
      by_cases hq : q e = true
      · rw [if_pos hq, mapGet_cons, mapGet_cons]
        by_cases he : e.1 = m
        · subst he
          simp only [if_pos rfl]
          constructor
          · rintro hv
            refine ⟨hv, ?_⟩
            simp at hv
            subst hv
            exact hq
          · exact fun hh => hh.1
        · simp only [if_neg he]
          exact ih h'.2
      · rw [if_neg hq, mapGet_cons]
        by_cases he : e.1 = m
        · subst he
          simp only [if_pos rfl]
          have hnone : mapGet t e.1 = none := (mapGet_eq_none_iff t e.1).mpr h'.1
          have hfil : mapGet (t.filter q) e.1 = none := by
            rw [mapGet_eq_none_iff]
            intro hmem
            exact h'.1 ((List.Sublist.map Prod.fst (List.filter_sublist t)).subset hmem)
          rw [hfil]
          constructor
          · intro hh; exact absurd hh (by simp)
          · rintro ⟨hv, hqv⟩
            simp at hv
            subst hv
            exact absurd hqv (by simpa using hq)
        · rw [if_neg he]
          exact ih h'.2

/-! ## Claim C7 — updateStream applies or silently no-ops -/

/-- C7: for every stream id, `updateStream` (and therefore `markStarted`
and `markFinished`, which are instances of it) applies the updater and
refreshes the last-update timestamp when the stream exists, and is a
silent no-op — no error raised, no store state changed — when the stream
is absent. -/
theorem C7_updateStream_applies_or_noop (streamId : String)
    (f : StreamState → StreamState) (now : Int) (st : StreamStore) :
    (StreamStore.getStream streamId st = none →
      StreamStore.updateStream streamId f now st = st) ∧
    (∀ s, StreamStore.getStream streamId st = some s →
      StreamStore.updateStream streamId f now st =
        { st with streams := (mapSet st.streams streamId { f s with updatedAt := now }) }) ∧
    StreamStore.markStarted streamId now st =
      StreamStore.updateStream streamId (fun s => { s with started := true }) now st ∧
    StreamStore.markFinished streamId now st =
      StreamStore.updateStream streamId (fun s => { s with finished := true }) now st := by
  refine ⟨?_, ?_, rfl, rfl⟩
  · intro h
    unfold StreamStore.updateStream
    rw [show mapGet st.streams streamId = none from h]
  · intro s h
    unfold StreamStore.updateStream
    rw [show mapGet st.streams streamId = some s from h]

/-- Witness for C7 at a concrete input: mutating a stream that was never
created leaves the fresh store untouched. -/
theorem C7_updateStream_witness :
    StreamStore.updateStream "s" (fun s => { s with content := "x" }) 5 StreamStore.init =
      StreamStore.init :=
  (C7_updateStream_applies_or_noop "s" (fun s => { s with content := "x" }) 5
    StreamStore.init).1 rfl

/-! ## Claim C9 — store no-op on blank URL; use without a bound address -/

/-- C9: `store` is a no-op when the response URL is absent or blank after
trimming (any existing record is left unchanged); otherwise it binds a
fresh record with the trimmed URL and the optional proxy, resetting the
usage history (`usedAt` and `lastError` absent); and `use` with no bound
address returns successfully (`skipped`, state unchanged, for every
deliver callback — so the callback is never consulted). -/
theorem C9_store_blank_noop_use_unbound (streamId : String) (now : Int)
    (st : ActiveReplyStore) :
    (∀ proxyUrl, ActiveReplyStore.store streamId none proxyUrl now st = st) ∧
    (∀ u proxyUrl, jsTrim u = "" →
       ActiveReplyStore.store streamId (some u) proxyUrl now st = st) ∧
    (∀ u proxyUrl, jsTrim u ≠ "" →
       ActiveReplyStore.store streamId (some u) proxyUrl now st =
         { st with activeReplies := (mapSet st.activeReplies streamId
             { response_url := jsTrim u, proxyUrl := proxyUrl, createdAt := now,
               usedAt := none, lastError := none }) }) ∧
    (mapGet st.activeReplies streamId = none →
       ∀ fn, ActiveReplyStore.use streamId fn now st = (UseOutcome.skipped, st)) := by
  refine ⟨fun proxyUrl => rfl, ?_, ?_, ?_⟩
  · intro u proxyUrl h
    unfold ActiveReplyStore.store
    simp [h]
  · intro u proxyUrl h
    unfold ActiveReplyStore.store
    simp [h]
  · intro h fn
    unfold ActiveReplyStore.use
    rw [show mapGet st.activeReplies streamId = none from h]

/-- Witness for C9 at concrete inputs: storing a blank URL on a fresh
store is a no-op, and `use` on the fresh store skips. -/
theorem C9_witness :
    ActiveReplyStore.store "s" (some "   ") none 7 (ActiveReplyStore.new Policy.once) =
      ActiveReplyStore.new Policy.once ∧
    ActiveReplyStore.use "s" (fun _ _ => Except.error "never called") 7
        (ActiveReplyStore.new Policy.once) =
      (UseOutcome.skipped, ActiveReplyStore.new Policy.once) := by
  have h := C9_store_blank_noop_use_unbound "s" 7 (ActiveReplyStore.new Policy.once)
  exact ⟨h.2.1 "   " none (by decide), h.2.2.2 rfl (fun _ _ => Except.error "never called")⟩

/-! ## Claim C10 — the singleton uses the `multi` policy -/

/-- C10: the process-wide coordinator constructs its reply-address store
with the `multi` policy, although the constructor's default is `once`;
every reply-store operation preserves the policy, and `use` on a store
with the `multi` policy can never fail with the policy-violation error,
so repeated consumptions through the global store are always permitted. -/
theorem C10_monitorState_multi_policy :
    monitorState.activeReplyStore.policy = Policy.multi ∧
    (ActiveReplyStore.new).policy = Policy.once ∧
    (∀ st sid url proxy now,
       (ActiveReplyStore.store sid url proxy now st).policy = st.policy) ∧
    (∀ st sid fn now, ((ActiveReplyStore.use sid fn now st).2).policy = st.policy) ∧
    (∀ st now, (ActiveReplyStore.prune now st).policy = st.policy) ∧
    (∀ st sid fn now m, st.policy = Policy.multi →
       (ActiveReplyStore.use sid fn now st).1 ≠ UseOutcome.policyViolation m) := by
  refine ⟨rfl, rfl, ?_, ?_, fun st now => rfl, ?_⟩
  · intro st sid url proxy now
    unfold ActiveReplyStore.store
    cases url.map jsTrim with
    | none => rfl
    | some u =>
        by_cases h : u = "" <;> simp [h]
  · intro st sid fn now
    unfold ActiveReplyStore.use
    cases mapGet st.activeReplies sid with
    | none => rfl
    | some state =>
        by_cases h : state.response_url = ""
        · simp [h]
        · by_cases hc : st.policy = Policy.once ∧ jsTruthyInt state.usedAt = true
          · dsimp only
            rw [if_neg h, if_pos hc]
          · dsimp only
            rw [if_neg h, if_neg hc]
            cases fn state.response_url state.proxyUrl <;> rfl
  · intro st sid fn now m hpol
    unfold ActiveReplyStore.use
    cases mapGet st.activeReplies sid with
    | none => simp
    | some state =>
        by_cases h : state.response_url = ""
        · simp [h]
        · have hcond : ¬ (st.policy = Policy.once ∧ jsTruthyInt state.usedAt = true) := by
            rintro ⟨h1, _⟩
            rw [hpol] at h1
            exact Policy.noConfusion h1
          dsimp only
          rw [if_neg h, if_neg hcond]
          cases fn state.response_url state.proxyUrl <;> simp

/-- Witness for C10 at a concrete input: a second consumption through a
`multi`-policy store is not a policy violation. -/
theorem C10_witness :
    ((ActiveReplyStore.use "s" (fun _ _ => Except.ok ()) 1
        (ActiveReplyStore.new Policy.multi)).1) ≠
      UseOutcome.policyViolation "response_url already used for stream s (Policy: once)" :=
  C10_monitorState_multi_policy.2.2.2.2.2 (ActiveReplyStore.new Policy.multi) "s"
    (fun _ _ => Except.ok ()) 1
    "response_url already used for stream s (Policy: once)" rfl

/-! ## Claim C4 — dedup round-trip through the msgid index -/

/-- C4: for every message id `m` — a nonempty string: the code's
truthiness check treats `""` as an absent id, matching the spec's "if an
inbound-message-id is supplied" — `createStream {msgid := m}` binds `m`
to the returned stream id in the secondary index regardless of any
earlier binding (last-writer-wins), so `getStreamByMsgId m` afterwards
returns exactly the id `createStream` returned and that stream is live:
a second inbound event sharing `m`, routed through the index check first,
resolves to the same stream id instead of creating a second stream. -/
theorem C4_dedup_roundtrip (m : String) (hm : m ≠ "") (now : Int) (st : StreamStore) :
    StreamStore.getStreamByMsgId m (StreamStore.createStream (some m) now st).2 =
      some (StreamStore.createStream (some m) now st).1 ∧
    StreamStore.getStream (StreamStore.createStream (some m) now st).1
        (StreamStore.createStream (some m) now st).2 ≠ none := by
  unfold StreamStore.createStream StreamStore.getStreamByMsgId StreamStore.getStream
  refine ⟨?_, ?_⟩
  · simp only [hm, if_pos, ite_true, ne_eq, not_false_eq_true]
    exact mapGet_set_self _ _ _
  · simp only
    rw [mapGet_set_self]
    simp

/-- Witness for C4 at a concrete input: creating a stream for msgid
`"m1"` on a fresh store and looking `"m1"` up returns that stream id. -/
theorem C4_witness :
    StreamStore.getStreamByMsgId "m1"
        (StreamStore.createStream (some "m1") 0 StreamStore.init).2 =
      some (StreamStore.createStream (some "m1") 0 StreamStore.init).1 :=
  (C4_dedup_roundtrip "m1" (by decide) 0 StreamStore.init).1

/-! ## Claim C5 — stream TTL eviction -/

/-- The stream sweep of `prune` keeps exactly the streams whose
last-update is within the TTL, independent of the index argument. -/
theorem pruneStreamsPass_fst (now : Int) (l : List (String × StreamState))
    (idx : List (String × String)) :
    (StreamStore.pruneStreamsPass now l idx).1 =
      l.filter (fun e => ¬ (e.2.updatedAt < now - LIMITS.STREAM_TTL_MS)) := by
  induction l generalizing idx with
  | nil => rfl
  | cons e t ih =>
      obtain ⟨id, s⟩ := e
      by_cases h : s.updatedAt < now - LIMITS.STREAM_TTL_MS
      · have hcond : ¬ now ≤ s.updatedAt + LIMITS.STREAM_TTL_MS := by omega
        simp [StreamStore.pruneStreamsPass, h, List.filter_cons, ih, hcond]
      · have hcond : now ≤ s.updatedAt + LIMITS.STREAM_TTL_MS := by omega
        simp [StreamStore.pruneStreamsPass, h, List.filter_cons, ih, hcond]

/-- C5: `prune now` evicts a stream exactly when `now` minus its
last-update exceeds the 10-minute stream TTL; afterwards `getStream`
returns absent for evicted streams and still returns the unchanged state
when the TTL has not been exceeded. -/
theorem C5_stream_ttl_eviction (now : Int) (st : StreamStore)
    (hnodup : keysNodup st.streams) (id : String) (s : StreamState)
    (hs : StreamStore.getStream id st = some s) :
    LIMITS.STREAM_TTL_MS = 10 * 60 * 1000 ∧
    StreamStore.getStream id (StreamStore.prune now st) =
      (if now - s.updatedAt > LIMITS.STREAM_TTL_MS then none else some s) := by
  refine ⟨rfl, ?_⟩
  have hstreams : (StreamStore.prune now st).streams =
      st.streams.filter (fun e => ¬ (e.2.updatedAt < now - LIMITS.STREAM_TTL_MS)) := by
    unfold StreamStore.prune
    exact pruneStreamsPass_fst now st.streams st.msgidToStreamId
  unfold StreamStore.getStream at hs ⊢
  rw [hstreams]
  by_cases h : now - s.updatedAt > LIMITS.STREAM_TTL_MS
  · rw [if_pos h]
    cases hfil : mapGet (st.streams.filter
        (fun e => ¬ (e.2.updatedAt < now - LIMITS.STREAM_TTL_MS))) id with
    | none => rfl
    | some v =>
        exfalso
        have hmem := (mapGet_filter st.streams _ hnodup id v).mp hfil
        have hsv : s = v := Option.some.inj (hs.symm.trans hmem.1)
        have hcond := hmem.2
        rw [← hsv] at hcond
        simp only [decide_eq_true_eq] at hcond
        omega
  · rw [if_neg h]
    refine (mapGet_filter st.streams _ hnodup id s).mpr ⟨hs, ?_⟩
    simp only [decide_eq_true_eq]
    omega

/-- Witness for C5 at a concrete input: a stream last updated at time 0
survives `prune` at 10 minutes sharp and is evicted by `prune` one
millisecond later. -/
theorem C5_witness :
    StreamStore.getStream (StreamStore.createStream none 0 StreamStore.init).1
        (StreamStore.prune 600000 (StreamStore.createStream none 0 StreamStore.init).2) =
      some { streamId := (StreamStore.createStream none 0 StreamStore.init).1,
             msgid := none, createdAt := 0, updatedAt := 0,
             started := false, finished := false, content := "" } ∧
    StreamStore.getStream (StreamStore.createStream none 0 StreamStore.init).1
        (StreamStore.prune 600001 (StreamStore.createStream none 0 StreamStore.init).2) =
      none := by
  constructor
  · have h := (C5_stream_ttl_eviction 600000
      (StreamStore.createStream none 0 StreamStore.init).2 (by decide)
      (StreamStore.createStream none 0 StreamStore.init).1
      { streamId := (StreamStore.createStream none 0 StreamStore.init).1,
        msgid := none, createdAt := 0, updatedAt := 0,
        started := false, finished := false, content := "" } rfl).2
    rw [h]
    decide
  · have h := (C5_stream_ttl_eviction 600001
      (StreamStore.createStream none 0 StreamStore.init).2 (by decide)
      (StreamStore.createStream none 0 StreamStore.init).1
      { streamId := (StreamStore.createStream none 0 StreamStore.init).1,
        msgid := none, createdAt := 0, updatedAt := 0,
        started := false, finished := false, content := "" } rfl).2
    rw [h]
    decide

/-! ## Claim C8 — fallback sweep of pending groups -/

/-- C8: `prune now` removes a pending group exactly when its age since
creation exceeds the stream TTL — the removal drops the entry (timer and
all) — and leaves younger groups untouched; the sweep never invokes the
flush handler (the invocation log and handler registration are
unchanged). -/
theorem C8_pending_fallback_sweep (now : Int) (st : StreamStore)
    (hnodup : keysNodup st.pendingInbounds) (k : String) (p : PendingInbound)
    (hp : mapGet st.pendingInbounds k = some p) :
    mapGet (StreamStore.prune now st).pendingInbounds k =
      (if now - p.createdAt > LIMITS.STREAM_TTL_MS then none else some p) ∧
    (StreamStore.prune now st).flushed = st.flushed ∧
    (StreamStore.prune now st).onFlush = st.onFlush := by
  refine ⟨?_, rfl, rfl⟩
  have hpend : (StreamStore.prune now st).pendingInbounds =
      st.pendingInbounds.filter (fun e => ¬ (now - e.2.createdAt > LIMITS.STREAM_TTL_MS)) :=
    rfl
  rw [hpend]
  by_cases h : now - p.createdAt > LIMITS.STREAM_TTL_MS
  · rw [if_pos h]
    cases hfil : mapGet (st.pendingInbounds.filter
        (fun e => ¬ (now - e.2.createdAt > LIMITS.STREAM_TTL_MS))) k with
    | none => rfl
    | some v =>
        exfalso
        have hmem := (mapGet_filter st.pendingInbounds _ hnodup k v).mp hfil
        have hpv : p = v := Option.some.inj (hp.symm.trans hmem.1)
        have hcond := hmem.2
        rw [← hpv] at hcond
        simp only [decide_eq_true_eq] at hcond
        omega
  · rw [if_neg h]
    refine (mapGet_filter st.pendingInbounds _ hnodup k p).mpr ⟨hp, ?_⟩
    simp only [decide_eq_true_eq]
    omega

/-- Witness for C8 at a concrete input: a pending group created at time 0
is dropped by the sweep at 10 minutes plus one millisecond, and the
handler-invocation log stays empty. -/
theorem C8_witness :
    (let st := (StreamStore.addPendingMessage
        { pendingKey := "u1", target := "t", msg := { msgid := some "m1" },
          msgContent := "hello", nonce := "n", timestamp := "ts",
          debounceMs := none } 0 StreamStore.init).2;
     mapGet (StreamStore.prune 600001 st).pendingInbounds "u1" = none ∧
       (StreamStore.prune 600001 st).flushed = st.flushed) := by
  have h := C8_pending_fallback_sweep 600001
    (StreamStore.addPendingMessage
      { pendingKey := "u1", target := "t", msg := { msgid := some "m1" },
        msgContent := "hello", nonce := "n", timestamp := "ts",
        debounceMs := none } 0 StreamStore.init).2 (by decide) "u1"
    { streamId := "stream-0", target := "t", msg := { msgid := some "m1" },
      contents := ["hello"], msgids := ["m1"], nonce := "n", timestamp := "ts",
      createdAt := 0, timeout := some 500 } (by decide)
  refine ⟨?_, h.2.1⟩
  rw [h.1]
  decide

/-! ## Claim C2 — addPendingMessage aggregation behaviour -/

/-- C2: with an existing group for the key, `addPendingMessage` appends
the fragment, appends the message id iff the message carries one (truthy
id), cancels-and-reschedules the flush timer for the debounce window from
now, returns the existing stream id with `isNew=false`, and touches
nothing else; with no group, it creates a new stream seeded with the
inbound message id, creates a group holding exactly the one fragment with
a scheduled timer, and returns the new stream id with `isNew=true`. -/
theorem C2_addPendingMessage_spec (params : StreamStore.AddPendingParams)
    (now : Int) (st : StreamStore) :
    (∀ p, mapGet st.pendingInbounds params.pendingKey = some p →
       StreamStore.addPendingMessage params now st =
         ((p.streamId, false),
          { st with pendingInbounds := (mapSet st.pendingInbounds params.pendingKey
              { p with
                contents := p.contents ++ [params.msgContent],
                msgids :=
                  if jsTruthy params.msg.msgid then
                    p.msgids ++ [params.msg.msgid.getD ""]
                  else p.msgids,
                timeout :=
                  some (now + params.debounceMs.getD LIMITS.DEFAULT_DEBOUNCE_MS) }) })) ∧
    (mapGet st.pendingInbounds params.pendingKey = none →
       (StreamStore.addPendingMessage params now st).1.2 = true ∧
       mapGet (StreamStore.addPendingMessage params now st).2.pendingInbounds
           params.pendingKey =
         some { streamId := (StreamStore.addPendingMessage params now st).1.1,
                target := params.target, msg := params.msg,
                contents := [params.msgContent],
                msgids :=
                  if jsTruthy params.msg.msgid then [params.msg.msgid.getD ""] else [],
                nonce := params.nonce, timestamp := params.timestamp,
                createdAt := now,
                timeout :=
                  some (now + params.debounceMs.getD LIMITS.DEFAULT_DEBOUNCE_MS) } ∧
       StreamStore.getStream (StreamStore.addPendingMessage params now st).1.1
           (StreamStore.addPendingMessage params now st).2 =
         some { streamId := (StreamStore.addPendingMessage params now st).1.1,
                msgid := params.msg.msgid, createdAt := now, updatedAt := now,
                started := false, finished := false, content := "" } ∧
       (jsTruthy params.msg.msgid →
          StreamStore.getStreamByMsgId (params.msg.msgid.getD "")
              (StreamStore.addPendingMessage params now st).2 =
            some (StreamStore.addPendingMessage params now st).1.1)) := by
  constructor
  · intro p hp
    unfold StreamStore.addPendingMessage
    rw [show mapGet st.pendingInbounds params.pendingKey = some p from hp]
  · intro hnone
    unfold StreamStore.addPendingMessage
    rw [show mapGet st.pendingInbounds params.pendingKey = none from hnone]
    refine ⟨rfl, ?_, ?_, ?_⟩
    · exact mapGet_set_self _ _ _
    · unfold StreamStore.getStream StreamStore.createStream
      exact mapGet_set_self _ _ _
    · intro htruthy
      unfold StreamStore.getStreamByMsgId StreamStore.createStream
      cases hmg : params.msg.msgid with
      | none => rw [hmg] at htruthy; exact absurd htruthy (by simp [jsTruthy])
      | some m =>
          have hm : m ≠ "" := by
            rw [hmg] at htruthy
            simpa [jsTruthy] using htruthy
          simp only [hmg, hm, Option.getD_some, if_pos, ite_true, ne_eq,
            not_false_eq_true]
          exact mapGet_set_self _ _ _

/-- Witness for C2 at concrete inputs: a first arrival creates the group
with isNew=true, and a second arrival for the same key appends to it with
isNew=false. -/
theorem C2_witness :
    (let firstCall := StreamStore.addPendingMessage
        { pendingKey := "u1", target := "t", msg := { msgid := some "m1" },
          msgContent := "hello", nonce := "n", timestamp := "ts",
          debounceMs := none } 0 StreamStore.init;
     firstCall.1.2 = true ∧
     (StreamStore.addPendingMessage
        { pendingKey := "u1", target := "t", msg := { msgid := some "m2" },
          msgContent := " world", nonce := "n2", timestamp := "ts2",
          debounceMs := none } 100 firstCall.2).1 = ("stream-0", false)) := by
  have h1 := (C2_addPendingMessage_spec
    { pendingKey := "u1", target := "t", msg := { msgid := some "m1" },
      msgContent := "hello", nonce := "n", timestamp := "ts",
      debounceMs := none } 0 StreamStore.init).2 rfl
  have h2 := (C2_addPendingMessage_spec
    { pendingKey := "u1", target := "t", msg := { msgid := some "m2" },
      msgContent := " world", nonce := "n2", timestamp := "ts2",
      debounceMs := none } 100 (StreamStore.addPendingMessage
        { pendingKey := "u1", target := "t", msg := { msgid := some "m1" },
          msgContent := "hello", nonce := "n", timestamp := "ts",
          debounceMs := none } 0 StreamStore.init).2).1
    { streamId := "stream-0", target := "t", msg := { msgid := some "m1" },
      contents := ["hello"], msgids := ["m1"], nonce := "n", timestamp := "ts",
      createdAt := 0, timeout := some 500 } (by decide)
  exact ⟨h1.1, by rw [h2]⟩

/-! ## Claim C1 — once-policy double use

The claim asserts that under the `once` policy the second `use` fails
with a policy violation regardless of whether the first delivery
succeeded or threw.  The code only stamps `usedAt` after a *successful*
delivery (`state.usedAt = Date.now()` sits after `await fn(...)` inside
the `try`), so a failed first delivery leaves the record unused and the
second call is admitted again. -/

/-- C1 counterexample: `once` policy, bound address; the first delivery
throws, and the second `use` call then *delivers* instead of failing
with the policy violation the claim requires. -/
theorem C1_counterexample :
    (ActiveReplyStore.use "s" (fun _ _ => Except.ok ()) 2
        (ActiveReplyStore.use "s" (fun _ _ => Except.error "boom") 1
          { policy := Policy.once,
            activeReplies := [("s",
              { response_url := "https://reply.example/x", proxyUrl := none,
                createdAt := 0, usedAt := none, lastError := none })] }).2).1 =
      UseOutcome.delivered ∧
    (ActiveReplyStore.use "s" (fun _ _ => Except.error "boom") 1
        { policy := Policy.once,
          activeReplies := [("s",
            { response_url := "https://reply.example/x", proxyUrl := none,
              createdAt := 0, usedAt := none, lastError := none })] }).1 =
      UseOutcome.deliveryFailed "boom" := by
  constructor <;> decide

/-- C1 amended: under the `once` policy with a bound, not-yet-used
address, the second `use` fails with the policy violation iff the first
delivery succeeded.  If the first delivery succeeds, any second call
fails with the policy-violation error naming the stream; if the first
delivery throws, the error message is recorded on the record and the
failure re-raised, but the record is left unused (`usedAt` still absent),
so a second call is admitted to attempt delivery again and cannot fail
with the policy violation.  (`now ≠ 0` reflects that `Date.now()` never
returns the falsy timestamp `0`.) -/
theorem C1_amended_once_policy (st : ActiveReplyStore) (sid : String)
    (state : ActiveReplyState) (now now' : Int)
    (hnow : now ≠ 0)
    (hpol : st.policy = Policy.once)
    (hst : mapGet st.activeReplies sid = some state)
    (hurl : state.response_url ≠ "")
    (hused : state.usedAt = none) :
    (∀ fn, fn state.response_url state.proxyUrl = Except.ok () →
       (ActiveReplyStore.use sid fn now st).1 = UseOutcome.delivered ∧
       (∀ fn', (ActiveReplyStore.use sid fn' now'
            (ActiveReplyStore.use sid fn now st).2).1 =
          UseOutcome.policyViolation
            ("response_url already used for stream " ++ sid ++ " (Policy: once)"))) ∧
    (∀ fn e, fn state.response_url state.proxyUrl = Except.error e →
       (ActiveReplyStore.use sid fn now st).1 = UseOutcome.deliveryFailed e ∧
       mapGet (ActiveReplyStore.use sid fn now st).2.activeReplies sid =
         some { state with lastError := some e } ∧
       (∀ fn' m, (ActiveReplyStore.use sid fn' now'
            (ActiveReplyStore.use sid fn now st).2).1 ≠
          UseOutcome.policyViolation m)) := by
  have hnotused : ¬ (st.policy = Policy.once ∧ jsTruthyInt state.usedAt = true) := by
    rintro ⟨-, habs⟩
    rw [hused] at habs
    exact absurd habs (by decide)
  constructor
  · intro fn hfn
    have huse : ActiveReplyStore.use sid fn now st =
        (UseOutcome.delivered,
         { st with activeReplies := (mapSet st.activeReplies sid
             { state with usedAt := some now }) }) := by
      unfold ActiveReplyStore.use
      rw [hst]
      dsimp only
      rw [if_neg hurl, if_neg hnotused, hfn]
    refine ⟨by rw [huse], ?_⟩
    intro fn'
    rw [huse]
    unfold ActiveReplyStore.use
    dsimp only
    rw [mapGet_set_self]
    dsimp only
    rw [if_neg hurl, if_pos ⟨hpol, by simp [jsTruthyInt, hnow]⟩]
  · intro fn e hfn
    have huse : ActiveReplyStore.use sid fn now st =
        (UseOutcome.deliveryFailed e,
         { st with activeReplies := (mapSet st.activeReplies sid
             { state with lastError := some e }) }) := by
      unfold ActiveReplyStore.use
      rw [hst]
      dsimp only
      rw [if_neg hurl, if_neg hnotused, hfn]
    refine ⟨by rw [huse], ?_, ?_⟩
    · rw [huse]
      exact mapGet_set_self _ _ _
    · intro fn' m
      rw [huse]
      unfold ActiveReplyStore.use
      dsimp only
      rw [mapGet_set_self]
      dsimp only
      have hnotused' :
          ¬ (st.policy = Policy.once ∧
             jsTruthyInt (ActiveReplyState.usedAt { state with lastError := some e }) = true) := by
        rintro ⟨-, habs⟩
        dsimp only at habs
        rw [hused] at habs
        exact absurd habs (by decide)
      rw [if_neg hurl, if_neg hnotused']
      cases fn' state.response_url state.proxyUrl <;> simp

/-- Witness for the amended C1 at a concrete input: after a successful
first delivery, the second `use` fails with the policy violation; after a
failed first delivery, the second `use` does not. -/
theorem C1_amended_witness :
    (ActiveReplyStore.use "s" (fun _ _ => Except.ok ()) 2
        (ActiveReplyStore.use "s" (fun _ _ => Except.ok ()) 1
          { policy := Policy.once,
            activeReplies := [("s",
              { response_url := "https://reply.example/x", proxyUrl := none,
                createdAt := 0, usedAt := none, lastError := none })] }).2).1 =
      UseOutcome.policyViolation
        "response_url already used for stream s (Policy: once)" ∧
    (ActiveReplyStore.use "s" (fun _ _ => Except.ok ()) 2
        (ActiveReplyStore.use "s" (fun _ _ => Except.error "boom") 1
          { policy := Policy.once,
            activeReplies := [("s",
              { response_url := "https://reply.example/x", proxyUrl := none,
                createdAt := 0, usedAt := none, lastError := none })] }).2).1 ≠
      UseOutcome.policyViolation
        "response_url already used for stream s (Policy: once)" := by
  have h := C1_amended_once_policy
    { policy := Policy.once,
      activeReplies := [("s",
        { response_url := "https://reply.example/x", proxyUrl := none,
          createdAt := 0, usedAt := none, lastError := none })] } "s"
    { response_url := "https://reply.example/x", proxyUrl := none,
      createdAt := 0, usedAt := none, lastError := none } 1 2 (by decide) rfl rfl
    (by decide) rfl
  exact ⟨(h.1 (fun _ _ => Except.ok ()) rfl).2 (fun _ _ => Except.ok ()),
         (h.2 (fun _ _ => Except.error "boom") "boom" rfl).2.2
           (fun _ _ => Except.ok ()) _⟩

/-! ## Claim C6 — index invariant after prune -/

/-- Unfolding equation of `pruneIdxStep` at a present msgid. -/
theorem pruneIdxStep_some_eq (idx : List (String × String)) (m' id : String) :
    StreamStore.pruneIdxStep idx (some m') id =
      (if m' ≠ "" then
        (if mapGet idx m' = some id then mapDelete idx m' else idx)
      else idx) := rfl

/-- Unfolding equation of `pruneStreamsPass` at a cons cell. -/
theorem pruneStreamsPass_cons_eq (now : Int) (id : String) (s : StreamState)
    (t : List (String × StreamState)) (idx : List (String × String)) :
    StreamStore.pruneStreamsPass now ((id, s) :: t) idx =
      (if s.updatedAt < now - LIMITS.STREAM_TTL_MS then
        StreamStore.pruneStreamsPass now t (StreamStore.pruneIdxStep idx s.msgid id)
      else
        ((id, s) :: (StreamStore.pruneStreamsPass now t idx).1,
         (StreamStore.pruneStreamsPass now t idx).2)) := rfl

/-- The per-stream index deletion only ever removes entries. -/
theorem pruneIdxStep_mono (idx : List (String × String)) (msgid : Option String)
    (id m i : String)
    (h : mapGet (StreamStore.pruneIdxStep idx msgid id) m = some i) :
    mapGet idx m = some i := by
  cases msgid with
  | none => exact h
  | some m' =>
      rw [pruneIdxStep_some_eq] at h
      by_cases hne : m' ≠ ""
      · rw [if_pos hne] at h
        by_cases hpt : mapGet idx m' = some id
        · rw [if_pos hpt, mapGet_delete] at h
          by_cases hm : m = m'
          · rw [if_pos hm] at h
            exact Option.noConfusion h
          · rwa [if_neg hm] at h
        · rwa [if_neg hpt] at h
      · rwa [if_neg hne] at h

/-- The per-stream index deletion keeps every entry that does not point
at the removed stream id. -/
theorem pruneIdxStep_preserve (idx : List (String × String)) (msgid : Option String)
    (id m i : String) (hne : i ≠ id)
    (h : mapGet idx m = some i) :
    mapGet (StreamStore.pruneIdxStep idx msgid id) m = some i := by
  cases msgid with
  | none => exact h
  | some m' =>
      rw [pruneIdxStep_some_eq]
      by_cases hblank : m' ≠ ""
      · rw [if_pos hblank]
        by_cases hpt : mapGet idx m' = some id
        · rw [if_pos hpt, mapGet_delete]
          have hm : ¬ m = m' := by
            intro hmm
            rw [hmm, hpt] at h
            exact hne (Option.some.inj h).symm
          rwa [if_neg hm]
        · rwa [if_neg hpt]
      · rwa [if_neg hblank]

/-- The per-stream index deletion preserves key uniqueness. -/
theorem pruneIdxStep_nodup (idx : List (String × String)) (msgid : Option String)
    (id : String) (h : keysNodup idx) :
    keysNodup (StreamStore.pruneIdxStep idx msgid id) := by
  cases msgid with
  | none => exact h
  | some m' =>
      rw [pruneIdxStep_some_eq]
      by_cases hblank : m' ≠ ""
      · rw [if_pos hblank]
        by_cases hpt : mapGet idx m' = some id
        · rw [if_pos hpt]
          exact keysNodup_delete idx m' h
        · rwa [if_neg hpt]
      · rwa [if_neg hblank]

/-- The stream sweep only ever removes index entries. -/
theorem pruneStreamsPass_idx_mono (now : Int) (l : List (String × StreamState))
    (idx : List (String × String)) (m i : String)
    (h : mapGet (StreamStore.pruneStreamsPass now l idx).2 m = some i) :
    mapGet idx m = some i := by
  induction l generalizing idx with
  | nil => exact h
  | cons e t ih =>
      obtain ⟨id, s⟩ := e
      by_cases hexp : s.updatedAt < now - LIMITS.STREAM_TTL_MS
      · rw [pruneStreamsPass_cons_eq, if_pos hexp] at h
        exact pruneIdxStep_mono idx s.msgid id m i (ih _ h)
      · rw [pruneStreamsPass_cons_eq, if_neg hexp] at h
        exact ih idx h

/-- The stream sweep keeps every index entry whose target stream never
appears expired in the stream list. -/
theorem pruneStreamsPass_idx_preserve (now : Int) (l : List (String × StreamState))
    (idx : List (String × String)) (m i : String)
    (hlive : ∀ s, (i, s) ∈ l → ¬ s.updatedAt < now - LIMITS.STREAM_TTL_MS)
    (h : mapGet idx m = some i) :
    mapGet (StreamStore.pruneStreamsPass now l idx).2 m = some i := by
  induction l generalizing idx with
  | nil => exact h
  | cons e t ih =>
      obtain ⟨id, s⟩ := e
      by_cases hexp : s.updatedAt < now - LIMITS.STREAM_TTL_MS
      · rw [pruneStreamsPass_cons_eq, if_pos hexp]
        have hne : i ≠ id := by
          intro hii
          exact hlive s (by rw [hii]; exact List.mem_cons_self _ _) hexp
        exact ih (StreamStore.pruneIdxStep idx s.msgid id)
          (fun s' hs' => hlive s' (List.mem_cons_of_mem _ hs'))
          (pruneIdxStep_preserve idx s.msgid id m i hne h)
      · rw [pruneStreamsPass_cons_eq, if_neg hexp]
        exact ih idx (fun s' hs' => hlive s' (List.mem_cons_of_mem _ hs')) h

/-- The stream sweep preserves key uniqueness of the index. -/
theorem pruneStreamsPass_idx_nodup (now : Int) (l : List (String × StreamState))
    (idx : List (String × String)) (h : keysNodup idx) :
    keysNodup (StreamStore.pruneStreamsPass now l idx).2 := by
  induction l generalizing idx with
  | nil => exact h
  | cons e t ih =>
      obtain ⟨id, s⟩ := e
      by_cases hexp : s.updatedAt < now - LIMITS.STREAM_TTL_MS
      · rw [pruneStreamsPass_cons_eq, if_pos hexp]
        exact ih _ (pruneIdxStep_nodup idx s.msgid id h)
      · rw [pruneStreamsPass_cons_eq, if_neg hexp]
        exact ih idx h

/-- C6: after `prune now`, an inbound-message-id index entry `m ↦ i`
survives exactly when it was present before and its target stream `i` is
still live in the pruned stream map — in particular every surviving index
entry references a live stream, entries for removed streams are gone, and
dangling entries (stream already missing) are swept. -/
theorem C6_index_invariant (now : Int) (st : StreamStore)
    (hs : keysNodup st.streams) (hi : keysNodup st.msgidToStreamId)
    (m i : String) :
    mapGet (StreamStore.prune now st).msgidToStreamId m = some i ↔
      (mapGet st.msgidToStreamId m = some i ∧
       mapContains (StreamStore.prune now st).streams i = true) := by
  have hpass2nodup : keysNodup (StreamStore.pruneStreamsPass now st.streams
      st.msgidToStreamId).2 :=
    pruneStreamsPass_idx_nodup now st.streams st.msgidToStreamId hi
  have hidx : (StreamStore.prune now st).msgidToStreamId =
      (StreamStore.pruneStreamsPass now st.streams st.msgidToStreamId).2.filter
        (fun e => mapContains (StreamStore.pruneStreamsPass now st.streams
          st.msgidToStreamId).1 e.2) := rfl
  have hstreams : (StreamStore.prune now st).streams =
      (StreamStore.pruneStreamsPass now st.streams st.msgidToStreamId).1 := rfl
  constructor
  · intro h
    rw [hidx] at h
    have hfil := (mapGet_filter _ _ hpass2nodup m i).mp h
    refine ⟨pruneStreamsPass_idx_mono now st.streams st.msgidToStreamId m i hfil.1, ?_⟩
    rw [hstreams]
    exact hfil.2
  · rintro ⟨h1, h2⟩
    rw [hstreams] at h2
    rw [hidx]
    have hfst : (StreamStore.pruneStreamsPass now st.streams st.msgidToStreamId).1 =
        st.streams.filter (fun e => ¬ (e.2.updatedAt < now - LIMITS.STREAM_TTL_MS)) :=
      pruneStreamsPass_fst now st.streams st.msgidToStreamId
    have hex : ∃ v, mapGet (StreamStore.pruneStreamsPass now st.streams
        st.msgidToStreamId).1 i = some v := by
      have h2' := h2
      unfold mapContains at h2'
      exact Option.isSome_iff_exists.mp h2'
    obtain ⟨v, hv⟩ := hex
    rw [hfst] at hv
    have hmem := (mapGet_filter st.streams _ hs i v).mp hv
    have hlive : ∀ s, (i, s) ∈ st.streams →
        ¬ s.updatedAt < now - LIMITS.STREAM_TTL_MS := by
      intro s hsmem
      have hgs : mapGet st.streams i = some s :=
        (mapGet_eq_some_iff_mem st.streams hs i s).mpr hsmem
      have hsv : s = v := Option.some.inj (hgs.symm.trans hmem.1)
      rw [hsv]
      simpa using hmem.2
    refine (mapGet_filter _ _ hpass2nodup m i).mpr ⟨?_, ?_⟩
    · exact pruneStreamsPass_idx_preserve now st.streams st.msgidToStreamId m i hlive h1
    · simpa using h2

/-- Witness for C6 at a concrete input: with a live (un-expired) stream
bound to msgid `"m1"`, the index entry survives `prune`. -/
theorem C6_witness :
    mapGet (StreamStore.prune 100
        (StreamStore.createStream (some "m1") 0 StreamStore.init).2).msgidToStreamId
      "m1" = some "stream-0" :=
  (C6_index_invariant 100 (StreamStore.createStream (some "m1") 0 StreamStore.init).2
    (by decide) (by decide) "m1" "stream-0").mpr ⟨by decide, by decide⟩

/-! ## Claim C3 — exactly-once flush with aggregated fragments -/

/-- Unfolding equation of `addPendingMessage` when a group exists. -/
theorem addPendingMessage_existing (params : StreamStore.AddPendingParams)
    (now : Int) (st : StreamStore) (p : PendingInbound)
    (hp : mapGet st.pendingInbounds params.pendingKey = some p) :
    StreamStore.addPendingMessage params now st =
      ((p.streamId, false),
       { st with pendingInbounds := (mapSet st.pendingInbounds params.pendingKey
           { p with
             contents := p.contents ++ [params.msgContent],
             msgids :=
               if jsTruthy params.msg.msgid then
                 p.msgids ++ [params.msg.msgid.getD ""]
               else p.msgids,
             timeout :=
               some (now + params.debounceMs.getD LIMITS.DEFAULT_DEBOUNCE_MS) }) }) := by
  unfold StreamStore.addPendingMessage
  rw [show mapGet st.pendingInbounds params.pendingKey = some p from hp]

/-- Unfolding equation of `addPendingMessage` when no group exists. -/
theorem addPendingMessage_new (params : StreamStore.AddPendingParams)
    (now : Int) (st : StreamStore)
    (hnone : mapGet st.pendingInbounds params.pendingKey = none) :
    StreamStore.addPendingMessage params now st =
      (((StreamStore.createStream params.msg.msgid now st).1, true),
       { (StreamStore.createStream params.msg.msgid now st).2 with
         pendingInbounds :=
           (mapSet (StreamStore.createStream params.msg.msgid now st).2.pendingInbounds
             params.pendingKey
             { streamId := (StreamStore.createStream params.msg.msgid now st).1,
               target := params.target, msg := params.msg,
               contents := [params.msgContent],
               msgids :=
                 if jsTruthy params.msg.msgid then [params.msg.msgid.getD ""] else [],
               nonce := params.nonce, timestamp := params.timestamp,
               createdAt := now,
               timeout :=
                 some (now + params.debounceMs.getD LIMITS.DEFAULT_DEBOUNCE_MS) }) }) := by
  unfold StreamStore.addPendingMessage
  rw [show mapGet st.pendingInbounds params.pendingKey = none from hnone]

/-- Unfolding equation of `flushPending` when the group exists. -/
theorem flushPending_found (k : String) (st : StreamStore) (q : PendingInbound)
    (hq : mapGet st.pendingInbounds k = some q) :
    StreamStore.flushPending k st =
      { st with
        pendingInbounds := mapDelete st.pendingInbounds k,
        flushed :=
          if st.onFlush then
            st.flushed ++ [if q.timeout.isSome then { q with timeout := none } else q]
          else st.flushed } := by
  unfold StreamStore.flushPending
  rw [show mapGet st.pendingInbounds k = some q from hq]

/-- Unfolding equation of `flushPending` when the group is absent: the
call is a no-op and in particular the handler fires zero times. -/
theorem flushPending_missing (k : String) (st : StreamStore)
    (h : mapGet st.pendingInbounds k = none) :
    StreamStore.flushPending k st = st := by
  unfold StreamStore.flushPending
  rw [show mapGet st.pendingInbounds k = none from h]

/-- Unfolding equation of `runArrivals` at a cons cell. -/
theorem runArrivals_cons_eq (k : String) (a : Arrival) (rest : List Arrival)
    (st : StreamStore) :
    runArrivals k (a :: rest) st =
      ((StreamStore.addPendingMessage (arrivalParams k a) a.now st).1 ::
         (runArrivals k rest
           (StreamStore.addPendingMessage (arrivalParams k a) a.now st).2).1,
       (runArrivals k rest
         (StreamStore.addPendingMessage (arrivalParams k a) a.now st).2).2) := rfl

/-- Arrivals on a key whose group already exists: every call returns
`isNew=false`, the fragments are appended in order, and neither the
handler-invocation log nor the handler registration changes. -/
theorem runArrivals_existing (k : String) (as : List Arrival) (st : StreamStore)
    (p : PendingInbound) (hp : mapGet st.pendingInbounds k = some p) :
    ((runArrivals k as st).1.map Prod.snd = List.replicate as.length false) ∧
    (∃ q, mapGet (runArrivals k as st).2.pendingInbounds k = some q ∧
       q.contents = p.contents ++ as.map Arrival.msgContent) ∧
    (runArrivals k as st).2.flushed = st.flushed ∧
    (runArrivals k as st).2.onFlush = st.onFlush := by
  induction as generalizing st p with
  | nil => exact ⟨rfl, ⟨p, hp, by simp⟩, rfl, rfl⟩
  | cons a rest ih =>
      have hadd := addPendingMessage_existing (arrivalParams k a) a.now st p hp
      rw [runArrivals_cons_eq, hadd]
      dsimp only [arrivalParams]
      have hget : mapGet
          ({ st with pendingInbounds := (mapSet st.pendingInbounds k
            { p with
              contents := p.contents ++ [a.msgContent],
              msgids :=
                if jsTruthy a.msg.msgid then p.msgids ++ [a.msg.msgid.getD ""]
                else p.msgids,
              timeout :=
                some (a.now + a.debounceMs.getD LIMITS.DEFAULT_DEBOUNCE_MS) }) } :
            StreamStore).pendingInbounds k =
          some
            { p with
              contents := p.contents ++ [a.msgContent],
              msgids :=
                if jsTruthy a.msg.msgid then p.msgids ++ [a.msg.msgid.getD ""]
                else p.msgids,
              timeout :=
                some (a.now + a.debounceMs.getD LIMITS.DEFAULT_DEBOUNCE_MS) } :=
        mapGet_set_self _ _ _
      obtain ⟨ih1, ⟨q, hq, hqc⟩, ih3, ih4⟩ := ih _ _ hget
      refine ⟨?_, ⟨q, hq, ?_⟩, ih3, ih4⟩
      · simp [ih1, List.replicate_succ]
      · rw [hqc]
        simp

/-- C3: for every grouping key and every nonempty burst of N arrivals
before the group flushes, `isNew=true` is returned only on the first
arrival, the arrivals themselves never fire the handler, the flush fires
the handler exactly once with the N fragments in arrival order, and a
further `flushPending` for the same key after the group was removed is a
no-op (zero further handler invocations). -/
theorem C3_flush_exactly_once (k : String) (as : List Arrival) (st0 : StreamStore)
    (h0 : mapGet st0.pendingInbounds k = none)
    (hf : st0.onFlush = true)
    (hne : as ≠ []) :
    ((runArrivals k as st0).1.map Prod.snd =
       true :: List.replicate (as.length - 1) false) ∧
    ((runArrivals k as st0).2.flushed = st0.flushed) ∧
    (∃ p, (StreamStore.flushPending k (runArrivals k as st0).2).flushed =
        (runArrivals k as st0).2.flushed ++ [p] ∧
      p.contents = as.map Arrival.msgContent) ∧
    (StreamStore.flushPending k (StreamStore.flushPending k (runArrivals k as st0).2) =
      StreamStore.flushPending k (runArrivals k as st0).2) := by
  cases as with
  | nil => exact absurd rfl hne
  | cons a rest =>
      have hadd := addPendingMessage_new (arrivalParams k a) a.now st0 h0
      have hA1snd :
          (StreamStore.addPendingMessage (arrivalParams k a) a.now st0).1.2 = true := by
        rw [hadd]
      have hA2pend : mapGet
          (StreamStore.addPendingMessage (arrivalParams k a) a.now st0).2.pendingInbounds
            k =
          some
            { streamId := (StreamStore.createStream a.msg.msgid a.now st0).1,
              target := a.target, msg := a.msg,
              contents := [a.msgContent],
              msgids := if jsTruthy a.msg.msgid then [a.msg.msgid.getD ""] else [],
              nonce := a.nonce, timestamp := a.timestamp,
              createdAt := a.now,
              timeout :=
                some (a.now + a.debounceMs.getD LIMITS.DEFAULT_DEBOUNCE_MS) } := by
        rw [hadd]
        dsimp only [arrivalParams]
        exact mapGet_set_self _ _ _
      have hA2flushed :
          (StreamStore.addPendingMessage (arrivalParams k a) a.now st0).2.flushed =
            st0.flushed := by
        rw [hadd]
        rfl
      have hA2on :
          (StreamStore.addPendingMessage (arrivalParams k a) a.now st0).2.onFlush =
            st0.onFlush := by
        rw [hadd]
        rfl
      obtain ⟨r1, ⟨q, hq, hqc⟩, r3, r4⟩ :=
        runArrivals_existing k rest
          (StreamStore.addPendingMessage (arrivalParams k a) a.now st0).2 _ hA2pend
      have hqcontents : q.contents = a.msgContent :: rest.map Arrival.msgContent := by
        rw [hqc]
        simp
      refine ⟨?_, ?_, ?_, ?_⟩
      · rw [runArrivals_cons_eq]
        simp only [List.map_cons]
        rw [hA1snd, r1]
        simp [List.replicate_succ]
      · rw [runArrivals_cons_eq]
        dsimp only
        rw [r3, hA2flushed]
      · refine ⟨if q.timeout.isSome then { q with timeout := none } else q, ?_, ?_⟩
        · rw [runArrivals_cons_eq]
          dsimp only
          rw [flushPending_found k _ q hq]
          dsimp only
          rw [r4, hA2on, hf]
          simp
        · cases hqt : q.timeout.isSome <;> simp [hqt, hqcontents]
      · rw [runArrivals_cons_eq]
        dsimp only
        refine flushPending_missing k _ ?_
        rw [flushPending_found k _ q hq]
        dsimp only
        rw [mapGet_delete]
        simp

/-- Witness for C3 at a concrete input: two arrivals `"hello"`, `" world"`
for key `"u1"`, then the flush — the handler log gains exactly one group
carrying both fragments in order, and `isNew` was true only on the first
arrival. -/
theorem C3_witness :
    ((runArrivals "u1"
        [{ target := "t", msg := { msgid := some "m1" }, msgContent := "hello",
           nonce := "n", timestamp := "ts", debounceMs := none, now := 0 },
         { target := "t", msg := { msgid := some "m2" }, msgContent := " world",
           nonce := "n2", timestamp := "ts2", debounceMs := none, now := 100 }]
        (StreamStore.setFlushHandler StreamStore.init)).1.map Prod.snd =
      [true, false]) ∧
    (∃ p, (StreamStore.flushPending "u1" (runArrivals "u1"
        [{ target := "t", msg := { msgid := some "m1" }, msgContent := "hello",
           nonce := "n", timestamp := "ts", debounceMs := none, now := 0 },
         { target := "t", msg := { msgid := some "m2" }, msgContent := " world",
           nonce := "n2", timestamp := "ts2", debounceMs := none, now := 100 }]
        (StreamStore.setFlushHandler StreamStore.init)).2).flushed =
        (runArrivals "u1"
          [{ target := "t", msg := { msgid := some "m1" }, msgContent := "hello",
             nonce := "n", timestamp := "ts", debounceMs := none, now := 0 },
           { target := "t", msg := { msgid := some "m2" }, msgContent := " world",
             nonce := "n2", timestamp := "ts2", debounceMs := none, now := 100 }]
          (StreamStore.setFlushHandler StreamStore.init)).2.flushed ++ [p] ∧
      p.contents = ["hello", " world"]) := by
  have h := C3_flush_exactly_once "u1"
    [{ target := "t", msg := { msgid := some "m1" }, msgContent := "hello",
       nonce := "n", timestamp := "ts", debounceMs := none, now := 0 },
     { target := "t", msg := { msgid := some "m2" }, msgContent := " world",
       nonce := "n2", timestamp := "ts2", debounceMs := none, now := 100 }]
    (StreamStore.setFlushHandler StreamStore.init) rfl rfl (by simp)
  refine ⟨by simpa using h.1, ?_⟩
  obtain ⟨p, hp1, hp2⟩ := h.2.2.1
  exact ⟨p, hp1, by simpa using hp2⟩
